import Mathlib

/-!
Verification of the ephemeral sandboxed code-execution engine
(`services/docker_sandbox.py`).

The Python source is shallowly embedded: the lifecycle registry
(`self.containers`, a Python dict keyed by container id) becomes an
association list with Python-dict insert/delete semantics; the external
Docker daemon's behaviour on one call to `execute_python_code` becomes an
explicit `ExecEnv` record saying which step raises, what the program's exit
status is, and so on; wall-clock instants and durations become naturals.
Each function of the source is translated branch-for-branch.
-/

namespace Sandbox

/-- One value of `self.containers`: `{"created_at": ..., "expires_at": ...}`
(timestamps as naturals). -/
structure ContainerInfo where
  created_at : Nat
  expires_at : Nat
deriving DecidableEq, Repr

/-- The lifecycle registry `self.containers`: a Python dict from container id
to `ContainerInfo`, modelled as an insertion-ordered association list with
unique keys. -/
abbrev Registry := List (String × ContainerInfo)

/-- The keys of the registry (the tracked container ids). -/
def Registry.keys (r : Registry) : List String := r.map Prod.fst

/-- Python dict assignment `d[k] = v`: update in place when the key is
present (keeping its position), append otherwise. -/
def dictInsert (r : Registry) (k : String) (v : ContainerInfo) : Registry :=
  if r.any (fun p => p.1 = k) then
    r.map (fun p => if p.1 = k then (k, v) else p)
  else
    r ++ [(k, v)]

/-- Python dict deletion `del d[k]` (guarded by `k in d` everywhere in the
source, so deleting an absent key is a no-op here). -/
def dictErase (r : Registry) (k : String) : Registry :=
  r.filter (fun p => p.1 ≠ k)

/-- The dictionary returned by `execute_python_code`
(`success` / `output` / `error` / `execution_time`). -/
structure Outcome where
  success : Bool
  output : Option String
  error : Option String
  execution_time : Nat
deriving DecidableEq, Repr

/-- What `container.wait(timeout=timeout)` (plus the following
`container.logs`) does: either the program exits with a status code and the
logs are fetched, or an exception (timeout, API error, logs failure) is
raised inside the inner `try`. -/
inductive WaitResult where
  | exited (statusCode : Nat)
  | raised (msg : String)
deriving DecidableEq, Repr

/-- The behaviour of the external world during one call to
`execute_python_code`: which step raises (and with what message), the
container id Docker assigns, the captured logs, the elapsed wall-clock time,
and whether the cleanup `stop` / `remove` calls raise. -/
structure ExecEnv where
  /-- id Docker assigns to the created container (`container.id`). -/
  containerId : String
  /-- value of `datetime.utcnow()` at registration time. -/
  createdAt : Nat
  /-- `tempfile.NamedTemporaryFile` / `f.write` raises before any client
  call is attempted. -/
  tempfileRaises : Option String
  /-- `self.client.containers.create(...)` raises. -/
  createRaises : Option String
  /-- `container.start()` raises. -/
  startRaises : Option String
  /-- outcome of `container.wait` + `container.logs`. -/
  wait : WaitResult
  /-- whether the best-effort `container.logs` retry in the inner `except`
  succeeds. -/
  logsAfterErrorAvailable : Bool
  /-- the combined stdout/stderr text when logs are available. -/
  logs : String
  /-- `time.time() - start_time` at the moment the outcome is built. -/
  elapsed : Nat
  /-- the cleanup `container.stop(timeout=1)` in the `finally` raises. -/
  stopRaises : Bool
  /-- the cleanup `container.remove(force=True)` in the `finally` raises. -/
  removeRaises : Bool
deriving DecidableEq, Repr

/-- Calls made to the isolation client during one execution. -/
inductive ClientOp where
  | provision
  | start
  | wait
  | fetchLogs
  | stop
  | remove
deriving DecidableEq, Repr

/-- Result of one call to `execute_python_code`: the returned dictionary,
the registry (`self.containers`) after the call, and the trace of calls made
to the Docker client. -/
structure ExecResult where
  outcome : Outcome
  registry : Registry
  ops : List ClientOp
deriving DecidableEq

/-- Client calls made by the cleanup `finally` block: `stop` is always
attempted; `remove` follows only when `stop` did not raise. -/
def cleanupOps (env : ExecEnv) : List ClientOp :=
  if env.stopRaises then [.stop] else [.stop, .remove]

/-- Registry after the cleanup `finally` block.  The source wraps
`container.stop`, `container.remove` and the registry `del` in a single bare
`try/except: pass`, in that order — so the entry is deleted only when both
`stop` and `remove` return normally. -/
def cleanupRegistry (env : ExecEnv) (r : Registry) : Registry :=
  if env.stopRaises || env.removeRaises then r else dictErase r env.containerId

/-- `DockerSandbox.execute_python_code(code, test_input, timeout)`.
`client` is whether `self.client` is non-`None`; `containerTTL` is
`settings.CONTAINER_TTL`; `reg` is `self.containers` before the call. -/
def execute_python_code (client : Bool) (containerTTL : Nat) (reg : Registry)
    (env : ExecEnv) : ExecResult :=
  if !client then
    { outcome := { success := false, error := some "Docker client not available",
                   output := none, execution_time := 0 },
      registry := reg, ops := [] }
  else
    match env.tempfileRaises with
    | some msg =>
        -- outer `except Exception`: error str(e); `finally`: `container`
        -- is unbound, the NameError is swallowed, registry untouched
        { outcome := { success := false, output := none, error := some msg,
                       execution_time := env.elapsed },
          registry := reg, ops := [] }
    | none =>
      match env.createRaises with
      | some msg =>
          { outcome := { success := false, output := none, error := some msg,
                         execution_time := env.elapsed },
            registry := reg, ops := [.provision] }
      | none =>
        -- container created: `self.containers[container.id] = {...}`
        let reg1 := dictInsert reg env.containerId
          { created_at := env.createdAt,
            expires_at := env.createdAt + containerTTL }
        match env.startRaises with
        | some msg =>
            { outcome := { success := false, output := none, error := some msg,
                           execution_time := env.elapsed },
              registry := cleanupRegistry env reg1,
              ops := [.provision, .start] ++ cleanupOps env }
        | none =>
          match env.wait with
          | .exited statusCode =>
              let outcome :=
                if statusCode = 0 then
                  { success := true, output := some env.logs, error := none,
                    execution_time := env.elapsed : Outcome }
                else
                  { success := false, output := some env.logs,
                    error := some ("Process exited with code " ++ toString statusCode),
                    execution_time := env.elapsed }
              { outcome := outcome,
                registry := cleanupRegistry env reg1,
                ops := [.provision, .start, .wait, .fetchLogs] ++ cleanupOps env }
          | .raised msg =>
              -- inner `except`: best-effort logs, then a timeout/error outcome
              let lg := if env.logsAfterErrorAvailable then some env.logs else none
              { outcome := { success := false, output := lg,
                             error := some ("Execution timeout or error: " ++ msg),
                             execution_time := env.elapsed },
                registry := cleanupRegistry env reg1,
                ops := [.provision, .start, .wait, .fetchLogs] ++ cleanupOps env }

/-- Behaviour of the `try` block of `_remove_container` for one handle:
`client` is whether `self.client` is set; `handleExists` is whether
`self.client.containers.get(container_id)` finds the container (it raises
`NotFound` otherwise); `stopOk` / `removeOk` are whether `container.stop` /
`container.remove` return normally. -/
def removeContainerBody (client handleExists stopOk removeOk : Bool) :
    Except String Unit :=
  if client then
    if handleExists then
      if stopOk then
        if removeOk then .ok () else .error "remove failed"
      else .error "stop failed"
    else .error "NotFound"
  else .ok ()

/-- `DockerSandbox._remove_container(container_id)`: the `try` body is run,
any exception is caught and logged, and the `finally` deletes the registry
entry when present.  Returns the registry after the call. -/
def _remove_container (client handleExists stopOk removeOk : Bool)
    (reg : Registry) (container_id : String) : Registry :=
  match removeContainerBody client handleExists stopOk removeOk with
  | .ok _ =>
      if (reg.any (fun p => p.1 = container_id)) then dictErase reg container_id
      else reg
  | .error _ =>
      -- `except Exception as e: print(...)`, then the same `finally`
      if (reg.any (fun p => p.1 = container_id)) then dictErase reg container_id
      else reg

/-- Per-container behaviour of the Docker client during a sweep, looked up
by container id: (exists, stopOk, removeOk). -/
abbrev DestroyBehaviour := String → Bool × Bool × Bool

/-- The `expired` list the sweep loop of `cleanup_expired_containers`
builds: the ids whose `expires_at` has passed
(`current_time > info["expires_at"]`). -/
def expiredIds (reg : Registry) (current_time : Nat) : List String :=
  (reg.filter (fun p => p.2.expires_at < current_time)).map Prod.fst

/-- `DockerSandbox.cleanup_expired_containers()`: collect every id whose
`expires_at` lies strictly before `current_time`
(`current_time > info["expires_at"]`), then `_remove_container` each in
turn.  Returns the registry after the sweep together with the list of ids
the sweep destroyed. -/
def cleanup_expired_containers (client : Bool) (behave : DestroyBehaviour)
    (reg : Registry) (current_time : Nat) : Registry × List String :=
  ((expiredIds reg current_time).foldl
    (fun r cid =>
      _remove_container client (behave cid).1 (behave cid).2.1 (behave cid).2.2 r cid)
    reg,
   expiredIds reg current_time)

/-- One entry of the `test_cases` list handed to `execute_code_with_tests`:
a dict whose `"input"` / `"expected_output"` keys may be absent
(`test_case.get(..., "")`). -/
structure TestCase where
  input : Option String
  expected_output : Option String
deriving DecidableEq, Repr

/-- One entry of the `results` list built by `execute_code_with_tests`.  The
source appends dicts with different key sets on the two branches; absent
keys are `none` here (`actual` is only set on the success branch, `error`
and `output` only on the failure branch). -/
structure TestCaseResult where
  test_case : Nat
  passed : Bool
  input : String
  expected : String
  actual : Option String
  error : Option String
  output : Option String
  execution_time : Nat
deriving DecidableEq, Repr

/-- The dictionary returned by `execute_code_with_tests`. -/
structure SuiteResult where
  success : Bool
  test_results : List TestCaseResult
  total_tests : Nat
  passed_tests : Nat
deriving DecidableEq, Repr

/-- Python's `str.strip()`: drop whitespace from both ends. -/
def pyStrip (s : String) : String :=
  String.mk (((s.toList.dropWhile Char.isWhitespace).reverse.dropWhile
    Char.isWhitespace).reverse)

/-- The body of the `for i, test_case in enumerate(test_cases)` loop of
`execute_code_with_tests`, given the `ExecutionOutcome` dict `r` that
`execute_python_code` returned for the wrapped code of this test case. -/
def runCase (i : Nat) (tc : TestCase) (r : Outcome) : TestCaseResult :=
  let test_input := tc.input.getD ""
  let expected_output := tc.expected_output.getD ""
  if r.success then
    let actual_output := pyStrip (r.output.getD "")
    let expected := pyStrip expected_output
    let passed := actual_output = expected
    { test_case := i + 1, passed := passed, input := test_input,
      expected := expected, actual := some actual_output, error := none,
      output := none, execution_time := r.execution_time }
  else
    { test_case := i + 1, passed := false, input := test_input,
      expected := expected_output, actual := none, error := r.error,
      output := r.output, execution_time := r.execution_time }

/-- The loop of `execute_code_with_tests`: accumulates `results` and the
`all_passed` flag across the test cases, calling the execution oracle at the
running index (`oracle i` is what `execute_python_code` returns for the
`i`-th wrapped program). -/
def suiteLoop (oracle : Nat → Outcome) (cases : List TestCase) (i : Nat)
    (acc : List TestCaseResult) (all_passed : Bool) :
    List TestCaseResult × Bool :=
  match cases with
  | [] => (acc, all_passed)
  | tc :: rest =>
      let r := runCase i tc (oracle i)
      suiteLoop oracle rest (i + 1) (acc ++ [r]) (all_passed && r.passed)

/-- `DockerSandbox.execute_code_with_tests(code, test_cases)`, with the
per-case behaviour of `execute_python_code` abstracted into `oracle`. -/
def execute_code_with_tests (oracle : Nat → Outcome)
    (test_cases : List TestCase) : SuiteResult :=
  let (results, all_passed) := suiteLoop oracle test_cases 0 [] true
  { success := all_passed,
    test_results := results,
    total_tests := test_cases.length,
    passed_tests := results.countP (·.passed) }

/-- A Python value as the harness's `result` may hold it. -/
inductive PyValue where
  | bool (b : Bool)
  | int (n : Int)
  | str (s : String)
  | none
  | list (xs : List PyValue)

/-- Whether `isinstance(result, bool)`. -/
def PyValue.isBool : PyValue → Bool
  | .bool _ => true
  | _ => false

mutual
/-- Python's `repr`, as far as the harnessed values need it. -/
def pyRepr : PyValue → String
  | .bool true => "True"
  | .bool false => "False"
  | .int n => toString n
  | .str s => "'" ++ s ++ "'"
  | .none => "None"
  | .list xs => "[" ++ pyReprList xs ++ "]"

/-- `", ".join(repr(x) for x in xs)`. -/
def pyReprList : List PyValue → String
  | [] => ""
  | [x] => pyRepr x
  | x :: xs => pyRepr x ++ ", " ++ pyReprList xs
end

/-- Python's `str`. -/
def pyStr : PyValue → String
  | .str s => s
  | v => pyRepr v

/-- Python's `str.lower()`: lowercase each character. -/
def pyLower (s : String) : String :=
  String.mk (s.toList.map Char.toLower)

/-- The harness's result line,
`print(str(result).lower() if isinstance(result, bool) else result)`:
booleans are printed lowercased, everything else via `str`. -/
def harnessPrintLine (result : PyValue) : String :=
  if result.isBool then pyLower (pyStr result) else pyStr result

/-! ### Helper lemmas on the registry -/

theorem mem_keys_of_mem {r : Registry} {p : String × ContainerInfo}
    (hp : p ∈ r) : p.1 ∈ r.keys :=
  List.mem_map_of_mem Prod.fst hp

theorem any_key_iff {r : Registry} {k : String} :
    r.any (fun p => p.1 = k) = true ↔ k ∈ r.keys := by
  simp only [List.any_eq_true, decide_eq_true_eq, Registry.keys, List.mem_map]

theorem not_any_key {r : Registry} {k : String} (h : k ∉ r.keys) :
    r.any (fun p => p.1 = k) = false := by
  rcases hb : r.any (fun p => p.1 = k) with _ | _
  · rfl
  · exact absurd (any_key_iff.mp hb) h

theorem dictErase_of_not_mem {r : Registry} {k : String} (h : k ∉ r.keys) :
    dictErase r k = r := by
  apply List.filter_eq_self.mpr
  intro p hp
  simp only [ne_eq, decide_eq_true_eq]
  exact fun hk => h (hk ▸ mem_keys_of_mem hp)

theorem dictInsert_fresh {r : Registry} {k : String} (h : k ∉ r.keys)
    (v : ContainerInfo) : dictInsert r k v = r ++ [(k, v)] := by
  unfold dictInsert
  simp [not_any_key h]

theorem dictErase_dictInsert_fresh {r : Registry} {k : String}
    (h : k ∉ r.keys) (v : ContainerInfo) :
    dictErase (dictInsert r k v) k = r := by
  rw [dictInsert_fresh h v]
  unfold dictErase
  rw [List.filter_append]
  have h1 : dictErase r k = r := dictErase_of_not_mem h
  unfold dictErase at h1
  rw [h1]
  simp

theorem not_mem_keys_dictErase (r : Registry) (k : String) :
    k ∉ (dictErase r k).keys := by
  intro hk
  rcases (List.mem_map).mp hk with ⟨p, hp, hpk⟩
  have := List.of_mem_filter hp
  simp only [ne_eq, decide_eq_true_eq] at this
  exact this hpk

theorem dictErase_dictErase (r : Registry) (k : String) :
    dictErase (dictErase r k) k = dictErase r k :=
  dictErase_of_not_mem (not_mem_keys_dictErase r k)

/-! ### Helper lemmas on the suite runner -/

/-- The results the loop of `execute_code_with_tests` appends for the cases
`cs` when the enumeration index starts at `i`. -/
def runResults (oracle : Nat → Outcome) : Nat → List TestCase → List TestCaseResult
  | _, [] => []
  | i, tc :: rest => runCase i tc (oracle i) :: runResults oracle (i + 1) rest

theorem suiteLoop_eq (oracle : Nat → Outcome) :
    ∀ (cases : List TestCase) (i : Nat) (acc : List TestCaseResult) (b : Bool),
      suiteLoop oracle cases i acc b =
        (acc ++ runResults oracle i cases,
         b && (runResults oracle i cases).all (·.passed)) := by
  intro cases
  induction cases with
  | nil => intro i acc b; simp [suiteLoop, runResults]
  | cons tc rest ih =>
      intro i acc b
      simp [suiteLoop, runResults, ih, Bool.and_assoc]

theorem exec_tests_results (oracle : Nat → Outcome) (cases : List TestCase) :
    (execute_code_with_tests oracle cases).test_results =
      runResults oracle 0 cases := by
  unfold execute_code_with_tests
  rw [suiteLoop_eq]
  simp

theorem exec_tests_success (oracle : Nat → Outcome) (cases : List TestCase) :
    (execute_code_with_tests oracle cases).success =
      (runResults oracle 0 cases).all (·.passed) := by
  unfold execute_code_with_tests
  rw [suiteLoop_eq]
  simp

theorem exec_tests_counts (oracle : Nat → Outcome) (cases : List TestCase) :
    (execute_code_with_tests oracle cases).total_tests = cases.length ∧
    (execute_code_with_tests oracle cases).passed_tests =
      (runResults oracle 0 cases).countP (·.passed) := by
  unfold execute_code_with_tests
  rw [suiteLoop_eq]
  simp

theorem runCase_test_case (i : Nat) (tc : TestCase) (r : Outcome) :
    (runCase i tc r).test_case = i + 1 := by
  by_cases h : r.success <;> simp [runCase, h]

theorem length_runResults (oracle : Nat → Outcome) :
    ∀ (cases : List TestCase) (i : Nat),
      (runResults oracle i cases).length = cases.length := by
  intro cases
  induction cases with
  | nil => intro i; rfl
  | cons tc rest ih => intro i; simp [runResults, ih]

theorem map_test_case_runResults (oracle : Nat → Outcome) :
    ∀ (cases : List TestCase) (i : Nat),
      (runResults oracle i cases).map (·.test_case) =
        List.range' (i + 1) cases.length := by
  intro cases
  induction cases with
  | nil => intro i; rfl
  | cons tc rest ih =>
      intro i
      simp only [runResults, List.map_cons, runCase_test_case, ih,
        List.length_cons, List.range'_succ]

theorem getElem?_runResults (oracle : Nat → Outcome) :
    ∀ (cases : List TestCase) (i j : Nat),
      (runResults oracle i cases)[j]? =
        (cases[j]?).map (fun tc => runCase (i + j) tc (oracle (i + j))) := by
  intro cases
  induction cases with
  | nil => intro i j; simp [runResults]
  | cons tc rest ih =>
      intro i j
      cases j with
      | zero => simp [runResults]
      | succ j =>
          simp only [runResults, List.getElem?_cons_succ, ih]
          have harith : i + 1 + j = i + (j + 1) := by omega
          rw [harith]

/-! ### Helper lemmas on the Reaper -/

theorem guarded_erase (reg : Registry) (cid : String) :
    (if reg.any (fun p => p.1 = cid) then dictErase reg cid else reg)
      = dictErase reg cid := by
  rcases ha : reg.any (fun p => p.1 = cid) with _ | _
  · rw [if_neg (by simp [ha])]
    refine (dictErase_of_not_mem ?_).symm
    intro hk
    rw [any_key_iff.mpr hk] at ha
    cases ha
  · rw [if_pos (by simp [ha])]

theorem remove_eq_dictErase (client hE sOk rOk : Bool) (reg : Registry)
    (cid : String) :
    _remove_container client hE sOk rOk reg cid = dictErase reg cid := by
  unfold _remove_container
  cases removeContainerBody client hE sOk rOk <;> exact guarded_erase reg cid

theorem contains_eq_true_iff {l : List String} {a : String} :
    l.contains a = true ↔ a ∈ l := List.elem_iff

theorem foldl_remove_eq_filter (client : Bool) (behave : DestroyBehaviour) :
    ∀ (l : List String) (reg : Registry),
      l.foldl (fun r cid =>
          _remove_container client (behave cid).1 (behave cid).2.1
            (behave cid).2.2 r cid) reg
        = reg.filter (fun p => !(l.contains p.1)) := by
  intro l
  induction l with
  | nil => intro reg; simp
  | cons a t ih =>
      intro reg
      rw [List.foldl_cons, remove_eq_dictErase, ih]
      unfold dictErase
      rw [List.filter_filter]
      apply List.filter_congr
      intro p _
      by_cases h : p.1 = a <;> simp [h, List.contains_cons]

theorem nodup_keys_inj {reg : Registry} (hnd : reg.keys.Nodup)
    {p q : String × ContainerInfo} (hp : p ∈ reg) (hq : q ∈ reg)
    (h : p.1 = q.1) : p = q :=
  List.inj_on_of_nodup_map hnd hp hq h

theorem mem_expiredIds_iff (now : Nat) {reg : Registry}
    (hnd : reg.keys.Nodup) {p : String × ContainerInfo} (hp : p ∈ reg) :
    p.1 ∈ expiredIds reg now ↔ p.2.expires_at < now := by
  unfold expiredIds
  constructor
  · intro hmem
    rcases List.mem_map.mp hmem with ⟨q, hqf, hq1⟩
    rcases List.mem_filter.mp hqf with ⟨hqreg, hqlt⟩
    have hqp : q = p := nodup_keys_inj hnd hqreg hp hq1
    simp only [decide_eq_true_eq] at hqlt
    exact hqp ▸ hqlt
  · intro hlt
    exact List.mem_map.mpr
      ⟨p, List.mem_filter.mpr ⟨hp, by simpa using hlt⟩, rfl⟩

theorem sweep_registry_eq (client : Bool) (behave : DestroyBehaviour)
    (reg : Registry) (now : Nat) (hnd : reg.keys.Nodup) :
    (cleanup_expired_containers client behave reg now).1 =
      reg.filter (fun p => !decide (p.2.expires_at < now)) := by
  unfold cleanup_expired_containers
  rw [foldl_remove_eq_filter]
  apply List.filter_congr
  intro p hp
  have hiff := mem_expiredIds_iff now hnd hp
  rcases hlt : decide (p.2.expires_at < now) with _ | _
  · simp only [decide_eq_false_iff_not] at hlt
    rcases hc : (expiredIds reg now).contains p.1 with _ | _
    · rfl
    · exact absurd (hiff.mp (contains_eq_true_iff.mp hc)) hlt
  · simp only [decide_eq_true_eq] at hlt
    have : (expiredIds reg now).contains p.1 = true :=
      contains_eq_true_iff.mpr (hiff.mpr hlt)
    rw [this]

/-! ### Claim theorems -/

/-- C2: when the client is disabled (`self.client is None`), every call to
`execute_python_code` returns the unavailable outcome
`{success: false, error: <client-unavailable message>, output: null,
execution_time: 0}` immediately, leaves the registry untouched (no handle
registered) and makes no call to the isolation client (in particular no
provision call). -/
theorem claim_C2_disabled_outcome (ttl : Nat) (reg : Registry) (env : ExecEnv) :
    execute_python_code false ttl reg env =
      { outcome := { success := false, output := Option.none,
                     error := some "Docker client not available",
                     execution_time := 0 },
        registry := reg, ops := [] } := rfl

/-- C2 fails only in its quoted message text: the disabled-state outcome's
error field holds the source's message "Docker client not available", not
the literal string "execution unavailable" the claim quotes. -/
theorem claim_C2_counterexample :
    (execute_python_code false 300 []
      { containerId := "c1", createdAt := 0, tempfileRaises := Option.none,
        createRaises := Option.none, startRaises := Option.none,
        wait := .exited 0, logsAfterErrorAvailable := true, logs := "",
        elapsed := 0, stopRaises := false,
        removeRaises := false }).outcome.error
      ≠ some "execution unavailable" := by decide

/-- C6: every outcome returned by `execute_python_code` has `error = none`
when `success` is true and a non-null `error` when `success` is false. -/
theorem claim_C6_error_discipline (client : Bool) (ttl : Nat) (reg : Registry)
    (env : ExecEnv) :
    ((execute_python_code client ttl reg env).outcome.success = true →
      (execute_python_code client ttl reg env).outcome.error = Option.none) ∧
    ((execute_python_code client ttl reg env).outcome.success = false →
      (execute_python_code client ttl reg env).outcome.error ≠ Option.none) := by
  rcases env with ⟨cid, ca, tf, cr, sr, w, la, lg, el, stR, rmR⟩
  cases client <;> cases tf <;> cases cr <;> cases sr <;> cases w <;>
    simp [execute_python_code] <;> split <;> simp_all

/-- Witness for C6 at two concrete executions (a successful exit-0 run and a
disabled-client run). -/
theorem claim_C6_witness :
    (execute_python_code true 300 []
      { containerId := "c1", createdAt := 0, tempfileRaises := Option.none,
        createRaises := Option.none, startRaises := Option.none,
        wait := .exited 0, logsAfterErrorAvailable := true, logs := "out",
        elapsed := 2, stopRaises := false,
        removeRaises := false }).outcome.error = Option.none ∧
    (execute_python_code false 300 []
      { containerId := "c1", createdAt := 0, tempfileRaises := Option.none,
        createRaises := Option.none, startRaises := Option.none,
        wait := .exited 0, logsAfterErrorAvailable := true, logs := "out",
        elapsed := 2, stopRaises := false,
        removeRaises := false }).outcome.error ≠ Option.none := by
  constructor
  · exact (claim_C6_error_discipline true 300 [] _).1 rfl
  · exact (claim_C6_error_discipline false 300 [] _).2 rfl

/-- C5: for each test case whose execution succeeded, `runCase` marks it
passed exactly when the trimmed actual output equals the trimmed expected
output; when the execution outcome has `success = false`, the result is
recorded as failed carrying the raw error and any partial output, with no
output comparison (`actual` is absent). -/
theorem claim_C5_grading (i : Nat) (tc : TestCase) (r : Outcome) :
    (r.success = true →
      ((runCase i tc r).passed = true ↔
        pyStrip (r.output.getD "") = pyStrip (tc.expected_output.getD ""))) ∧
    (r.success = false →
      (runCase i tc r).passed = false ∧
      (runCase i tc r).error = r.error ∧
      (runCase i tc r).output = r.output ∧
      (runCase i tc r).actual = Option.none) := by
  by_cases h : r.success <;> simp [runCase, h]

/-- Witness for C5: a concrete passing comparison (whitespace-trimmed) and a
concrete failed execution recorded as failed. -/
theorem claim_C5_witness :
    (runCase 0 { input := some "x", expected_output := some "5" }
      { success := true, output := some " 5\n", error := Option.none,
        execution_time := 1 }).passed = true ∧
    (runCase 0 { input := some "x", expected_output := some "5" }
      { success := false, output := some "traceback", error := some "boom",
        execution_time := 1 }).passed = false := by
  constructor
  · exact ((claim_C5_grading 0 _ _).1 rfl).mpr (by decide)
  · exact ((claim_C5_grading 0 _ _).2 rfl).1

/-- C9: the generated harness prints boolean results lowercased (`True`
prints as `"true"`, matching an expected string `"true"`), and prints
non-boolean results via `str` without that normalization. -/
theorem claim_C9_bool_normalization :
    harnessPrintLine (.bool true) = "true" ∧
    harnessPrintLine (.bool false) = "false" ∧
    (∀ b : Bool, harnessPrintLine (.bool b) = pyLower (pyStr (.bool b))) ∧
    (∀ v : PyValue, v.isBool = false → harnessPrintLine v = pyStr v) := by
  refine ⟨by decide, by decide, ?_, ?_⟩
  · intro b; cases b <;> rfl
  · intro v h; simp [harnessPrintLine, h]

/-- Witness for C9: a non-boolean value is printed unnormalized. -/
theorem claim_C9_witness :
    harnessPrintLine (PyValue.int 5) = pyStr (PyValue.int 5) ∧
    harnessPrintLine (PyValue.bool true) = "true" :=
  ⟨claim_C9_bool_normalization.2.2.2 (PyValue.int 5) rfl,
   claim_C9_bool_normalization.1⟩

/-- C10: a test case missing the `"input"` or `"expected_output"` key is
treated as if the field were the empty string; the incomplete case yields a
normal `TestCaseResult` (with empty input/expected text) and the suite still
produces one result per case, surfacing no error. -/
theorem claim_C10_missing_fields (i : Nat) (r : Outcome)
    (inp exp : Option String) (oracle : Nat → Outcome)
    (pre post : List TestCase) :
    runCase i { input := Option.none, expected_output := exp } r =
      runCase i { input := some "", expected_output := exp } r ∧
    runCase i { input := inp, expected_output := Option.none } r =
      runCase i { input := inp, expected_output := some "" } r ∧
    (runCase i { input := Option.none, expected_output := Option.none } r).input
      = "" ∧
    (runCase i { input := Option.none, expected_output := Option.none } r).expected
      = "" ∧
    (execute_code_with_tests oracle
        (pre ++ { input := Option.none, expected_output := Option.none } :: post)
      ).test_results.length = pre.length + 1 + post.length := by
  refine ⟨rfl, rfl, ?_, ?_, ?_⟩
  · by_cases h : r.success <;> simp [runCase, h]
  · by_cases h : r.success <;> simp [runCase, h] <;> rfl
  · rw [exec_tests_results, length_runResults]
    simp only [List.length_append, List.length_cons]
    omega

/-- C3: for every test-case list and every mixture of per-case outcomes,
the suite result satisfies `passed_tests = count of passed results`,
`total_tests = length of the input list`, and `success` holds iff
`passed_tests = total_tests`; on the empty list `total_tests = 0` and
`success = true`. -/
theorem claim_C3_suite_invariants (oracle : Nat → Outcome)
    (cases : List TestCase) :
    (execute_code_with_tests oracle cases).passed_tests =
      ((execute_code_with_tests oracle cases).test_results.filter
        (·.passed)).length ∧
    (execute_code_with_tests oracle cases).total_tests = cases.length ∧
    ((execute_code_with_tests oracle cases).success = true ↔
      (execute_code_with_tests oracle cases).passed_tests =
        (execute_code_with_tests oracle cases).total_tests) ∧
    (execute_code_with_tests oracle []).success = true ∧
    (execute_code_with_tests oracle []).total_tests = 0 := by
  have hres := exec_tests_results oracle cases
  have hsucc := exec_tests_success oracle cases
  have hcnt := exec_tests_counts oracle cases
  refine ⟨?_, hcnt.1, ?_, rfl, rfl⟩
  · rw [hcnt.2, hres, List.countP_eq_length_filter]
  · rw [hsucc, hcnt.2, hcnt.1, ← length_runResults oracle cases 0]
    rw [List.all_eq_true, List.countP_eq_length]

/-- C7: the suite produces exactly one result per test case, in submission
order, the `j`-th result being built from the `j`-th test case and carrying
the 1-based index `j + 1`; no per-case outcome (including failures) aborts
the remaining cases. -/
theorem claim_C7_results_shape (oracle : Nat → Outcome)
    (cases : List TestCase) :
    (execute_code_with_tests oracle cases).test_results.length =
      cases.length ∧
    (execute_code_with_tests oracle cases).test_results.map (·.test_case) =
      List.range' 1 cases.length ∧
    ∀ j : Nat,
      (execute_code_with_tests oracle cases).test_results[j]? =
        (cases[j]?).map (fun tc => runCase j tc (oracle j)) := by
  have hres := exec_tests_results oracle cases
  refine ⟨?_, ?_, ?_⟩
  · rw [hres, length_runResults]
  · rw [hres, map_test_case_runResults]
  · intro j
    rw [hres, getElem?_runResults]
    simp

/-- C4: a sweep tick removes from the registry exactly the handles whose
expiry has passed, independent of whether their destroy succeeded (the
behaviour function is arbitrary): the destroyed ids are those with
`expires_at < now`, each such handle leaves the registry, handles whose
expiry has not passed stay; in particular a handle registered with
`ttl = 0` (`expires_at = created_at`) is destroyed by the next tick (any
`now > created_at`), and a far-future handle (`now ≤ expires_at`) is
kept. -/
theorem claim_C4_sweep (client : Bool) (behave : DestroyBehaviour)
    (reg : Registry) (now : Nat) (hnd : reg.keys.Nodup) :
    (cleanup_expired_containers client behave reg now).1 =
      reg.filter (fun p => !decide (p.2.expires_at < now)) ∧
    (cleanup_expired_containers client behave reg now).2 =
      (reg.filter (fun p => p.2.expires_at < now)).map Prod.fst ∧
    (∀ p ∈ reg, p.2.expires_at < now →
      p.1 ∈ (cleanup_expired_containers client behave reg now).2 ∧
      p.1 ∉ ((cleanup_expired_containers client behave reg now).1).keys) ∧
    (∀ p ∈ reg, now ≤ p.2.expires_at →
      p ∈ (cleanup_expired_containers client behave reg now).1) ∧
    (∀ p ∈ reg, p.2.expires_at = p.2.created_at → p.2.created_at < now →
      p.1 ∉ ((cleanup_expired_containers client behave reg now).1).keys) := by
  have hreg := sweep_registry_eq client behave reg now hnd
  have hgone : ∀ p ∈ reg, p.2.expires_at < now →
      p.1 ∉ ((cleanup_expired_containers client behave reg now).1).keys := by
    intro p hp hlt hk
    rcases List.mem_map.mp hk with ⟨q, hq, hq1⟩
    rw [hreg] at hq
    rcases List.mem_filter.mp hq with ⟨hqreg, hqkeep⟩
    have hqkeep2 : ¬ (q.2.expires_at < now) := by simpa using hqkeep
    exact hqkeep2 (nodup_keys_inj hnd hqreg hp hq1 ▸ hlt)
  refine ⟨hreg, rfl, ?_, ?_, ?_⟩
  · intro p hp hlt
    refine ⟨?_, hgone p hp hlt⟩
    exact (mem_expiredIds_iff now hnd hp).mpr hlt
  · intro p hp hle
    rw [hreg]
    exact List.mem_filter.mpr ⟨hp, by simpa using Nat.not_lt.mpr hle⟩
  · intro p hp heq hlt
    exact hgone p hp (heq ▸ hlt)

/-- Witness for C4 at a concrete sweep: a ttl-0 handle (expiry 0, swept at
time 50) is destroyed, a far-future handle (expiry 100) survives, with the
destroy behaviour failing for every handle. -/
theorem claim_C4_witness :
    (cleanup_expired_containers true (fun _ => (true, false, false))
        [("a", { created_at := 0, expires_at := 0 }),
         ("b", { created_at := 0, expires_at := 100 })] 50).1 =
      [("a", { created_at := 0, expires_at := 0 }),
       ("b", { created_at := 0, expires_at := 100 })].filter
        (fun p => !decide (p.2.expires_at < 50)) :=
  (claim_C4_sweep true (fun _ => (true, false, false))
    [("a", { created_at := 0, expires_at := 0 }),
     ("b", { created_at := 0, expires_at := 100 })] 50 (by decide)).1

/-- C8: `_remove_container` (the removal path shared by the Reaper and
shutdown) never raises, whatever the Docker client does — already-destroyed
or absent container (`NotFound`), failing `stop` or `remove`, disabled
client — and it always removes any remaining registry entry for the handle;
on an already-removed handle it is a no-op, and running it twice equals
running it once. -/
theorem claim_C8_remove_idempotent
    (client hE sOk rOk client2 hE2 sOk2 rOk2 : Bool) (reg : Registry)
    (cid : String) :
    _remove_container client hE sOk rOk reg cid = dictErase reg cid ∧
    cid ∉ (_remove_container client hE sOk rOk reg cid).keys ∧
    (cid ∉ reg.keys → _remove_container client hE sOk rOk reg cid = reg) ∧
    _remove_container client2 hE2 sOk2 rOk2
        (_remove_container client hE sOk rOk reg cid) cid =
      _remove_container client hE sOk rOk reg cid := by
  have h1 := remove_eq_dictErase client hE sOk rOk reg cid
  refine ⟨h1, ?_, ?_, ?_⟩
  · rw [h1]; exact not_mem_keys_dictErase reg cid
  · intro habs; rw [h1]; exact dictErase_of_not_mem habs
  · rw [h1, remove_eq_dictErase]
    exact dictErase_dictErase reg cid

/-- Witness for C8: removing a handle absent from a concrete registry is a
no-op. -/
theorem claim_C8_witness :
    _remove_container true false false false
        [("b", { created_at := 0, expires_at := 100 })] "a" =
      [("b", { created_at := 0, expires_at := 100 })] :=
  (claim_C8_remove_idempotent true false false false true true true true
    [("b", { created_at := 0, expires_at := 100 })] "a").2.2.1 (by decide)

/-- C1 fails as stated: on the exit path where the cleanup's
`container.stop` raises (for example because the daemon errors while the
entry is still registered), the single bare `try/except` around
`stop`/`remove`/`del` skips the registry deletion, so the call leaves its
own entry in the registry. Concretely: a successful exit-0 execution whose
cleanup `stop` raises leaves the registry different from the (empty)
registry it found. -/
theorem claim_C1_counterexample :
    (execute_python_code true 300 []
      { containerId := "c1", createdAt := 0, tempfileRaises := Option.none,
        createRaises := Option.none, startRaises := Option.none,
        wait := .exited 0, logsAfterErrorAvailable := true, logs := "",
        elapsed := 1, stopRaises := true, removeRaises := false }).registry
      ≠ ([] : Registry) := by decide

/-- C1 amended: on every exit path on which the cleanup's `stop` and
`remove` calls return normally, the call removes the registry entry it
created, so (the created container id being fresh) the registry after the
call equals the registry before it; when `stop` or `remove` raises, the
entry may remain, left for the Reaper to reclaim. -/
theorem claim_C1_registry_restored (client : Bool) (ttl : Nat)
    (reg : Registry) (env : ExecEnv) (hstop : env.stopRaises = false)
    (hrem : env.removeRaises = false)
    (hfresh : env.containerId ∉ reg.keys) :
    (execute_python_code client ttl reg env).registry = reg := by
  rcases env with ⟨cid, ca, tf, cr, sr, w, la, lg, el, stR, rmR⟩
  subst hstop hrem
  have hclean : ∀ r : Registry,
      cleanupRegistry
        { containerId := cid, createdAt := ca, tempfileRaises := tf,
          createRaises := cr, startRaises := sr, wait := w,
          logsAfterErrorAvailable := la, logs := lg, elapsed := el,
          stopRaises := false, removeRaises := false } r =
        dictErase r cid := by
    intro r; simp [cleanupRegistry]
  cases client <;> cases tf <;> cases cr <;> cases sr <;> cases w <;>
    simp [execute_python_code, hclean, dictErase_dictInsert_fresh hfresh]

/-- Witness for C1 (amended): a concrete successful execution with raising-
free cleanup restores the concrete registry it found. -/
theorem claim_C1_witness :
    (execute_python_code true 300
      [("old", { created_at := 0, expires_at := 7 })]
      { containerId := "c1", createdAt := 3, tempfileRaises := Option.none,
        createRaises := Option.none, startRaises := Option.none,
        wait := .exited 0, logsAfterErrorAvailable := true, logs := "out",
        elapsed := 1, stopRaises := false, removeRaises := false }).registry
      = [("old", { created_at := 0, expires_at := 7 })] :=
  claim_C1_registry_restored true 300
    [("old", { created_at := 0, expires_at := 7 })] _ rfl rfl (by decide)

end Sandbox
